import Mathlib

/-!
Verification of the moltbotCNAPP bridge (Feishu ⇄ ClawdBot Gateway).

This file shallowly embeds the core of the repository:

* the Go string primitives the bridge uses (`strings.TrimSpace`,
  `strings.Contains`, `strings.HasSuffix`, `strings.ToLower`, and the two
  regular expressions `@_user_\d+\s*` and the trigger patterns), modelled
  character-by-character over `List Char`;
* the group-chat trigger policy `shouldRespondInGroup`
  (internal/bridge/bridge.go);
* the dedup cache and `HandleMessage` (internal/bridge/bridge.go);
* the Gateway protocol reader of `AskClawdbot` (internal/clawdbot/client.go)
  as a step function over the parsed envelopes it distinguishes;
* the streaming dispatcher `processMessage` (internal/bridge/bridge.go) as a
  step function over the per-call events (thinking timer, ticker,
  progress callback, call resolution).

External collaborators (the Feishu chat platform client and the websocket
transport) are modelled by their effects: a chat state records the visible
messages, and platform calls are assumed to succeed; the raw JSON text of a
stream frame and its parse are carried as separate fields since JSON
decoding itself is external.
-/

/-! ### Go character classes and string primitives -/

/-- Character class of the RE2 escape `\s` (ASCII whitespace):
tab, newline, form feed, carriage return, space. -/
def reSpace (c : Char) : Bool :=
  decide (c = '\t' ∨ c = '\n' ∨ c = Char.ofNat 12 ∨ c = '\r' ∨ c = ' ')

/-- Character class of the RE2 escape `\d`. -/
def isDigitGo (c : Char) : Bool :=
  decide ('0' ≤ c ∧ c ≤ '9')

/-- RE2 word characters `\w` = `[0-9A-Za-z_]`, used by the `\b` boundary. -/
def isWordChar (c : Char) : Bool :=
  decide (('a' ≤ c ∧ c ≤ 'z') ∨ ('A' ≤ c ∧ c ≤ 'Z') ∨ ('0' ≤ c ∧ c ≤ '9') ∨ c = '_')

/-- The whitespace set of Go's `unicode.IsSpace`, used by `strings.TrimSpace`. -/
def unicodeIsSpace (c : Char) : Bool :=
  decide (c = '\t' ∨ c = '\n' ∨ c = Char.ofNat 11 ∨ c = Char.ofNat 12 ∨ c = '\r' ∨ c = ' '
    ∨ c = Char.ofNat 0x85 ∨ c = Char.ofNat 0xA0 ∨ c = Char.ofNat 0x1680
    ∨ (Char.ofNat 0x2000 ≤ c ∧ c ≤ Char.ofNat 0x200A)
    ∨ c = Char.ofNat 0x2028 ∨ c = Char.ofNat 0x2029 ∨ c = Char.ofNat 0x202F
    ∨ c = Char.ofNat 0x205F ∨ c = Char.ofNat 0x3000)

/-- Go `strings.TrimSpace`: drop `unicode.IsSpace` characters at both ends. -/
def goTrimSpace (s : String) : String :=
  ⟨((s.data.dropWhile unicodeIsSpace).reverse.dropWhile unicodeIsSpace).reverse⟩

/-- Go `strings.ToLower`, restricted to the ASCII case mapping.  The
vocabularies matched by the bridge are ASCII and CJK, so only the ASCII
mapping is exercised by the patterns. -/
def toLowerChar (c : Char) : Char :=
  if 'A' ≤ c ∧ c ≤ 'Z' then Char.ofNat (c.toNat + 32) else c

/-- Lower-case a whole string (Go `strings.ToLower`). -/
def toLowerGo (s : String) : String :=
  ⟨s.data.map toLowerChar⟩

/-- Go `strings.HasSuffix`. -/
def suffixGo (suf s : String) : Bool :=
  decide (suf.data <:+ s.data)

/-- Go `strings.Contains`. -/
def containsGo (sub s : String) : Bool :=
  decide (sub.data <:+: s.data)

/-! ### The mention-stripping regex `@_user_\d+\s*` -/

/-- Literal header of the mention pattern. -/
def mentionHeader : List Char := ['@', '_', 'u', 's', 'e', 'r', '_']

/-- Try to match `@_user_\d+\s*` at the head of `cs`; on success return the
remaining characters after the (greedy) match. -/
def matchMention (cs : List Char) : Option (List Char) :=
  if mentionHeader.isPrefixOf cs then
    match cs.drop 7 with
    | d :: rest =>
        if isDigitGo d then some ((rest.dropWhile isDigitGo).dropWhile reSpace) else none
    | [] => none
  else none

/-- Scan for non-overlapping leftmost matches and delete them
(`regexp.ReplaceAllString` with the empty replacement).  The fuel argument
bounds the recursion; every step consumes at least one character, so fuel
equal to the input length is always sufficient. -/
def rmAux : Nat → List Char → List Char
  | 0, cs => cs
  | _ + 1, [] => []
  | fuel + 1, c :: rest =>
      match matchMention (c :: rest) with
      | some rest1 => rmAux fuel rest1
      | none => c :: rmAux fuel rest

/-- `removeMentions` from internal/bridge/bridge.go: delete every occurrence
of `@_user_\d+\s*`. -/
def removeMentions (s : String) : String :=
  ⟨rmAux s.data.length s.data⟩

/-! ### Whole-word matching (the compiled `\b` word `\b` patterns) -/

/-- Is the position after `prev` a valid left word boundary for a word? -/
def boundaryBefore : Option Char → Bool
  | none => true
  | some c => !isWordChar c

/-- Is the position before `cs` a valid right word boundary for a word? -/
def boundaryAfter : List Char → Bool
  | [] => true
  | c :: _ => !isWordChar c

/-- Scan `cs` for an occurrence of `w` with word boundaries on both sides;
`prev` is the character immediately before `cs`, if any. -/
def wwAux (w : List Char) : Option Char → List Char → Bool
  | _, [] => false
  | prev, c :: rest =>
      (boundaryBefore prev && w.isPrefixOf (c :: rest)
        && boundaryAfter ((c :: rest).drop w.length))
      || wwAux w (some c) rest

/-- Go `regexp.MustCompile("\\b" + w + "\\b").MatchString text`. -/
def containsWordGo (w text : String) : Bool :=
  wwAux w.data none text.data

/-! ### The trigger policy `shouldRespondInGroup` -/

/-- A Feishu mention, opaque to the bridge (only its presence matters). -/
structure Mention where
  userID : String := ""

/-- Interrogative words checked with `\b` boundaries on the lowered text. -/
def questionWords : List String :=
  ["why", "how", "what", "when", "where", "who", "help"]

/-- Chinese action verbs checked with `strings.Contains` on the raw text. -/
def actionVerbs : List String :=
  ["帮", "麻烦", "请", "能否", "可以", "解释", "看看",
   "排查", "分析", "总结", "写", "改", "修", "查", "对比", "翻译"]

/-- Bot-name triggers checked with `^trigger[\s,:，：]` on the lowered text. -/
def botTriggers : List String :=
  ["alen", "clawdbot", "bot", "助手", "智能体"]

/-- The separator class `[\s,:，：]` of the bot-trigger patterns. -/
def sepClass (c : Char) : Bool :=
  reSpace c || decide (c = ',' ∨ c = ':' ∨ c = '，' ∨ c = '：')

/-- `regexp.MatchString("^" + t + "[\\s,:，：]", lower)`. -/
def prefixTriggerGo (t lower : String) : Bool :=
  t.data.isPrefixOf lower.data &&
    (match lower.data.drop t.data.length with
     | [] => false
     | c :: _ => sepClass c)

/-- `shouldRespondInGroup` from internal/bridge/bridge.go. -/
def shouldRespondInGroup (text : String) (mentions : List Mention) : Bool :=
  if mentions.length > 0 then true
  else
    let lowerText := toLowerGo text
    if suffixGo "?" text || suffixGo "？" text then true
    else if questionWords.any (fun w => containsWordGo w lowerText) then true
    else if actionVerbs.any (fun v => containsGo v text) then true
    else if botTriggers.any (fun t => prefixTriggerGo t lowerText) then true
    else false

example : shouldRespondInGroup "bot x" [] = true := by decide
example : shouldRespondInGroup "你好" [] = false := by decide
example : shouldRespondInGroup "帮我写一段代码" [] = true := by decide
example : shouldRespondInGroup "what is this" [] = true := by decide
example : shouldRespondInGroup "whatx" [] = false := by decide
example : shouldRespondInGroup "天气如何？" [] = true := by decide

/-! ### The dedup cache (`messageCache`) and `HandleMessage` -/

/-- TTL of the dedup cache, in milliseconds: `10 * time.Minute`. -/
def dedupTTL : Nat := 600000

/-- The `messageCache`: message id → first-seen timestamp.  The Go map is
modelled as an association list; `add` overwrites the key the way a map
assignment does. -/
structure Cache where
  entries : List (String × Nat) := []
deriving DecidableEq

/-- `messageCache.has`: presence check `_, exists := mc.cache[id]`. -/
def Cache.has (c : Cache) (id : String) : Bool :=
  c.entries.any (fun e => decide (e.1 = id))

/-- `messageCache.add`: `mc.cache[id] = time.Now()`. -/
def Cache.add (c : Cache) (id : String) (now : Nat) : Cache :=
  { entries := c.entries.filter (fun e => decide (e.1 ≠ id)) ++ [(id, now)] }

/-- One iteration of the `cleanup` sweep at time `now`: delete every entry
with `now.Sub(timestamp) > mc.ttl`. -/
def Cache.sweep (c : Cache) (now : Nat) : Cache :=
  { entries := c.entries.filter (fun e => decide (now - e.2 ≤ dedupTTL)) }

/-- An inbound Feishu message, as consumed by the bridge.  The `feishu`
package itself is outside the core; the fields are those the dispatcher
reads (spec §6: `{chatID, chatType, messageID, content, mentions}`). -/
structure FeishuMessage where
  messageID : String := ""
  chatID : String := ""
  chatType : String := ""
  content : String := ""
  mentions : List Mention := []

/-- Result of `HandleMessage`: the updated cache, the unit of work spawned
(chat id and cleaned text of the `go processMessage` call), if any, and the
returned `error` (`none` = `nil`). -/
structure HandleResult where
  cache : Cache
  spawn : Option (String × String) := none
  err : Option String := none

/-- `Bridge.HandleMessage` from internal/bridge/bridge.go, at time `now`. -/
def handleMessage (c : Cache) (msg : FeishuMessage) (now : Nat) : HandleResult :=
  if msg.messageID ≠ "" ∧ c.has msg.messageID then
    { cache := c }
  else
    let c1 := if msg.messageID ≠ "" then c.add msg.messageID now else c
    let text := goTrimSpace (removeMentions msg.content)
    if text = "" then { cache := c1 }
    else if msg.chatType = "group" ∧ ¬shouldRespondInGroup text msg.mentions then
      { cache := c1 }
    else
      { cache := c1, spawn := some (msg.chatID, text) }

/-- Events touching the dedup cache: an inbound message handled at a time,
or a pass of the cleanup goroutine. -/
inductive BridgeEvent where
  | handle (msg : FeishuMessage) (now : Nat)
  | sweep (now : Nat)

/-- The wall-clock time of a bridge event. -/
def BridgeEvent.time : BridgeEvent → Nat
  | .handle _ t => t
  | .sweep t => t

/-- Apply one bridge event to the cache. -/
def bridgeStep (c : Cache) : BridgeEvent → Cache
  | .handle m t => (handleMessage c m t).cache
  | .sweep t => c.sweep t

/-- Run a sequence of bridge events. -/
def runBridge (c : Cache) : List BridgeEvent → Cache
  | [] => c
  | e :: es => runBridge (bridgeStep c e) es

example :
    (handleMessage {} { messageID := "m1", chatID := "c", content := "@_user_1 hi" } 5).spawn
      = some ("c", "hi") := by decide
example :
    (handleMessage { entries := [("m1", 0)] }
        { messageID := "m1", chatID := "c", content := "hi" } 5).spawn = none := by decide

/-! ### The Gateway protocol reader of `AskClawdbot` -/

/-- The decoded `data` of a stream frame (`StreamData` in
internal/clawdbot/client.go); an absent JSON field decodes to `""`. -/
structure StreamData where
  text : String := ""
  delta : String := ""
  phase : String := ""
  message : String := ""
deriving DecidableEq

/-- The decoded payload of an `event{event:"agent"}` envelope
(`EventPayload`).  `raw` is the raw JSON text of the `data` field, which is
what `onProgress` receives; `data` is its decode as a `StreamData`, `none`
when `json.Unmarshal` fails. -/
structure EventPayload where
  runId : String := ""
  stream : String := ""
  data : Option StreamData := none
  raw : String := ""
deriving DecidableEq

/-- One inbound websocket message, already classified the way the reader
loop of `AskClawdbot` classifies it.  `malformed` is an envelope that fails
to unmarshal; `other` is an envelope matching none of the handled shapes.
For a `res{id:"agent"}`, `runId` is `none` when the payload fails to
unmarshal. -/
inductive GwMsg where
  | malformed
  | challenge
  | connectRes (ok : Bool) (errMsg : Option String)
  | agentRes (ok : Bool) (errMsg : Option String) (runId : Option String)
  | agentEvent (p : Option EventPayload)
  | other
deriving DecidableEq

/-- The `connect` request parameters (`ConnectParams`). -/
structure ConnectParams where
  minProtocol : Nat
  maxProtocol : Nat
  clientId : String
  clientVersion : String
  clientPlatform : String
  clientMode : String
  role : String
  scopes : List String
  authToken : String
  locale : String
  userAgent : String
deriving DecidableEq

/-- A request written to the connection.  The correlation id and the method
are fixed per constructor, mirroring the literal `Request` values. -/
inductive GwRequest where
  | connect (p : ConnectParams)
  | agent (message agentId sessionKey : String) (deliver : Bool) (idempotencyKey : String)
  | reset (key : String)
deriving DecidableEq

/-- The literal `ID` field of a request. -/
def GwRequest.reqId : GwRequest → String
  | .connect _ => "connect"
  | .agent _ _ _ _ _ => "agent"
  | .reset _ => "reset"

/-- The literal `Method` field of a request. -/
def GwRequest.reqMethod : GwRequest → String
  | .connect _ => "connect"
  | .agent _ _ _ _ _ => "agent"
  | .reset _ => "sessions.reset"

/-- The `ConnectParams` value built by the reader on a `connect.challenge`. -/
def mkConnectParams (token : String) : ConnectParams :=
  { minProtocol := 3
    maxProtocol := 3
    clientId := "gateway-client"
    clientVersion := "0.2.0"
    clientPlatform := "linux"
    clientMode := "backend"
    role := "operator"
    scopes := ["operator.read", "operator.write", "operator.admin"]
    authToken := token
    locale := "zh-CN"
    userAgent := "clawdbot-bridge-go" }

/-- Per-call configuration of `AskClawdbot`: the client's token and agent id,
the call's text and session key, and the idempotency key (a fresh UUID in
the source, modelled as a parameter). -/
structure GwCfg where
  token : String := ""
  agentID : String := ""
  text : String := ""
  sessionKey : String := ""
  idemKey : String := ""
deriving DecidableEq

/-- State of the reader goroutine: the captured `runID`, the reply `buffer`,
the `onProgress` notifications launched so far (stream name and raw data,
in launch order), and the requests written so far. -/
structure GwState where
  runID : String := ""
  buffer : String := ""
  progress : List (String × String) := []
  sent : List GwRequest := []
deriving DecidableEq

/-- Outcome of running the reader: still reading, resolved successfully
(`responseChan`), or resolved with an error (`errorChan`).  The reader state
is carried so the launched notifications stay observable. -/
inductive GwOutcome where
  | running (s : GwState)
  | success (reply : String) (s : GwState)
  | failure (msg : String) (s : GwState)
deriving DecidableEq

/-- The reader state inside an outcome. -/
def GwOutcome.finalState : GwOutcome → GwState
  | .running s => s
  | .success _ s => s
  | .failure _ s => s

/-- Buffer update for an `assistant` frame: a non-empty `text` replaces the
buffer, else a non-empty `delta` appends, else the buffer is unchanged. -/
def applyAssistant (buffer : String) (d : StreamData) : String :=
  if d.text ≠ "" then d.text
  else if d.delta ≠ "" then buffer ++ d.delta
  else buffer

/-- One iteration of the reader loop of `AskClawdbot`. -/
def stepGw (cfg : GwCfg) (s : GwState) : GwMsg → GwOutcome
  | .malformed => .running s
  | .other => .running s
  | .challenge =>
      .running { s with sent := s.sent ++ [.connect (mkConnectParams cfg.token)] }
  | .connectRes ok errMsg =>
      if ok then
        .running { s with
          sent := s.sent ++ [.agent cfg.text cfg.agentID cfg.sessionKey true cfg.idemKey] }
      else
        .failure (errMsg.getD "connect failed") s
  | .agentRes ok errMsg runId =>
      if ok then
        .running { s with runID := match runId with | some r => r | none => s.runID }
      else
        .failure (errMsg.getD "agent error") s
  | .agentEvent none => .running s
  | .agentEvent (some p) =>
      if s.runID ≠ "" ∧ p.runId ≠ s.runID then .running s
      else if p.stream = "assistant" then
        let s1 := { s with progress := s.progress ++ [("assistant", p.raw)] }
        match p.data with
        | some d => .running { s1 with buffer := applyAssistant s1.buffer d }
        | none => .running s1
      else if p.stream = "thought" then
        .running { s with progress := s.progress ++ [("thought", p.raw)] }
      else if p.stream = "tool_call" then
        .running { s with progress := s.progress ++ [("tool_call", p.raw)] }
      else if p.stream = "tool_result" then
        .running { s with progress := s.progress ++ [("tool_result", p.raw)] }
      else if p.stream = "lifecycle" then
        match p.data with
        | some d =>
            if d.phase = "end" then .success s.buffer s
            else if d.phase = "error" then
              .failure (if d.message ≠ "" then d.message else "agent error") s
            else .running s
        | none => .running s
      else .running s

/-- Run the reader over a sequence of inbound messages; a terminal outcome
stops the loop (the goroutine returns). -/
def runGw (cfg : GwCfg) : GwState → List GwMsg → GwOutcome
  | s, [] => .running s
  | s, m :: ms =>
      match stepGw cfg s m with
      | .running s1 => runGw cfg s1 ms
      | o => o

/-- Concrete configuration used by closed evaluation theorems. -/
def cfg₀ : GwCfg :=
  { token := "tok", agentID := "main", text := "hi", sessionKey := "feishu:c1", idemKey := "uuid-1" }

/-- An `assistant` frame carrying the given full text. -/
def frameText (rid t : String) : GwMsg :=
  .agentEvent (some { runId := rid, stream := "assistant", data := some { text := t }, raw := t })

/-- An `assistant` frame carrying the given delta. -/
def frameDelta (rid d : String) : GwMsg :=
  .agentEvent (some { runId := rid, stream := "assistant", data := some { delta := d }, raw := d })

example :
    (runGw cfg₀ {} [frameText "" "A", frameDelta "" "B", frameDelta "" "C"]).finalState.buffer
      = "ABC" := by decide

/-! ### The streaming dispatcher `processMessage` -/

/-- State of the chat as seen through the Feishu client: the visible
messages (id, current text) and a counter generating message ids. -/
structure FsState where
  msgs : List (String × String) := []
  nextID : Nat := 0
deriving DecidableEq

/-- `SendMessage`: create a visible message, returning its id. -/
def FsState.send (fs : FsState) (text : String) : FsState × String :=
  let id := "m" ++ toString fs.nextID
  ({ msgs := fs.msgs ++ [(id, text)], nextID := fs.nextID + 1 }, id)

/-- `UpdateMessage`: replace the text of a visible message. -/
def FsState.update (fs : FsState) (id text : String) : FsState :=
  { fs with msgs := fs.msgs.map (fun m => if m.1 = id then (id, text) else m) }

/-- `DeleteMessage`: remove a visible message. -/
def FsState.delete (fs : FsState) (id : String) : FsState :=
  { fs with msgs := fs.msgs.filter (fun m => decide (m.1 ≠ id)) }

/-- The id `SendMessage` would assign next. -/
def freshID (fs : FsState) : String := "m" ++ toString fs.nextID

/-- A call against the Feishu client, for observing what the dispatcher did. -/
inductive FsAction where
  | send (id text : String)
  | update (id text : String)
  | delete (id : String)
deriving DecidableEq

/-- Per-call state of `processMessage`: the ids of the thinking placeholder
and of the streaming response message (`""` = none), the `done` flag, the
one-shot thinking timer, the animation ticker, the dot counter, the
accumulated stream buffer, the throttle timestamp, and the chat state. -/
structure DState where
  placeholderID : String := ""
  responseMessageID : String := ""
  done : Bool := false
  timerFired : Bool := false
  tickerActive : Bool := false
  thinkingDots : Nat := 0
  buffer : String := ""
  lastUpdateTime : Nat := 0
  fs : FsState := {}
deriving DecidableEq

/-- Events of one `processMessage` call, serialized by the per-call mutex:
the thinking timer firing, an animation tick, an `onProgress` callback with
the decoded stream data at wall-clock time `now`, and the return of
`AskClawdbot` with its reply and error. -/
inductive DEvent where
  | timerFire
  | tick
  | progress (stream : String) (data : Option StreamData) (now : Nat)
  | resolve (reply : String) (err : Option String)
deriving DecidableEq

/-- The reply string after error substitution: a failed call is rendered as
`（系统出错）<error>`. -/
def resolvedReply (reply : String) (err : Option String) : String :=
  match err with
  | some e => "（系统出错）" ++ e
  | none => reply

/-- One event of `processMessage` (thinking threshold `thinkingMs`),
returning the next state and the Feishu calls performed. -/
def stepD (thinkingMs : Nat) (s : DState) : DEvent → DState × List FsAction
  | .timerFire =>
      if thinkingMs = 0 ∨ s.timerFired then (s, [])
      else
        let s1 := { s with timerFired := true }
        if s1.done then (s1, [])
        else
          let (fs1, nid) := s1.fs.send "正在思考."
          ({ s1 with
              fs := fs1, placeholderID := nid, thinkingDots := 1, tickerActive := true },
            [.send nid "正在思考."])
  | .tick =>
      if ¬s.tickerActive then (s, [])
      else if s.done ∨ s.placeholderID = "" then ({ s with tickerActive := false }, [])
      else
        let dots := s.thinkingDots % 3 + 1
        let txt := "正在思考" ++ String.mk (List.replicate dots '.')
        ({ s with thinkingDots := dots, fs := s.fs.update s.placeholderID txt },
          [.update s.placeholderID txt])
  | .progress stream data now =>
      if stream ≠ "assistant" then (s, [])
      else if s.done then (s, [])
      else
        match data with
        | none => (s, [])
        | some d =>
            if d.text = "" ∧ d.delta = "" then (s, [])
            else
              let buf := applyAssistant s.buffer d
              let s1 := { s with buffer := buf }
              if buf = "" then (s1, [])
              else if s1.responseMessageID = "" then
                let s2 := { s1 with tickerActive := false }
                let (s3, acts) :=
                  if s2.placeholderID ≠ "" then
                    ({ s2 with fs := s2.fs.delete s2.placeholderID, placeholderID := "" },
                      [FsAction.delete s2.placeholderID])
                  else (s2, [])
                let (fs1, nid) := s3.fs.send buf
                ({ s3 with fs := fs1, responseMessageID := nid, lastUpdateTime := now },
                  acts ++ [.send nid buf])
              else if now - s1.lastUpdateTime < 300 then (s1, [])
              else
                ({ s1 with fs := s1.fs.update s1.responseMessageID buf, lastUpdateTime := now },
                  [.update s1.responseMessageID buf])
  | .resolve reply err =>
      let s1 := { s with done := true, tickerActive := false, timerFired := true }
      let r := goTrimSpace (resolvedReply reply err)
      if r = "" ∨ r = "NO_REPLY" then
        let (s2, acts1) :=
          if s1.placeholderID ≠ "" then
            ({ s1 with fs := s1.fs.delete s1.placeholderID }, [FsAction.delete s1.placeholderID])
          else (s1, [])
        if s2.responseMessageID ≠ "" then
          ({ s2 with fs := s2.fs.delete s2.responseMessageID },
            acts1 ++ [.delete s2.responseMessageID])
        else (s2, acts1)
      else if s1.responseMessageID ≠ "" then
        ({ s1 with fs := s1.fs.update s1.responseMessageID r }, [.update s1.responseMessageID r])
      else if s1.placeholderID ≠ "" then
        let fs1 := s1.fs.delete s1.placeholderID
        let (fs2, nid) := fs1.send r
        ({ s1 with fs := fs2 }, [.delete s1.placeholderID, .send nid r])
      else
        let (fs2, nid) := s1.fs.send r
        ({ s1 with fs := fs2 }, [.send nid r])

/-- Run a sequence of `processMessage` events, accumulating the Feishu
calls. -/
def runD (thinkingMs : Nat) (s : DState) : List DEvent → DState × List FsAction
  | [] => (s, [])
  | e :: es =>
      let (s1, a1) := stepD thinkingMs s e
      let (s2, a2) := runD thinkingMs s1 es
      (s2, a1 ++ a2)

example :
    (runD 500 {} [.timerFire, .resolve "完成" none]).2
      = [.send "m0" "正在思考.", .delete "m0", .send "m1" "完成"] := by decide
example :
    (runD 500 {} [.progress "assistant" (some { text := "结果" }) 100, .resolve "结果" none]).2
      = [.send "m0" "结果", .update "m0" "结果"] := by decide

/-! ### Spec-side characterisation of the trigger policy -/

/-- `text` contains `w` as a whole word: an occurrence with non-word
characters (or the text ends) on both sides. -/
def WholeWordIn (w text : String) : Prop :=
  ∃ pre post : List Char,
    text.data = pre ++ w.data ++ post
    ∧ boundaryBefore pre.getLast? = true
    ∧ boundaryAfter post = true

/-- `lower` starts with the trigger `t` followed by a separator. -/
def TriggerPrefix (t lower : String) : Prop :=
  ∃ c rest, lower.data = t.data ++ c :: rest ∧ sepClass c = true

/-- The spec's trigger condition for a group message without mentions, as a
disjunction of independent predicates. -/
def SpecTrigger (text : String) : Prop :=
  ("?".data <:+ text.data ∨ "？".data <:+ text.data)
  ∨ (∃ w ∈ questionWords, WholeWordIn w (toLowerGo text))
  ∨ (∃ v ∈ actionVerbs, v.data <:+: text.data)
  ∨ (∃ t ∈ botTriggers, TriggerPrefix t (toLowerGo text))

/-- The character immediately left of an occurrence: the last of `pre`, or
`prev` when the occurrence starts the scanned suffix. -/
def lastOr (prev : Option Char) : List Char → Option Char
  | [] => prev
  | c :: pre => lastOr (some c) pre

theorem lastOr_cons (prev : Option Char) (c : Char) (pre : List Char) :
    lastOr prev (c :: pre) = lastOr (some c) pre := rfl

theorem lastOr_some (a : Char) (pre : List Char) :
    lastOr (some a) pre = (a :: pre).getLast? := by
  induction pre generalizing a with
  | nil => simp [lastOr]
  | cons c pre' ih => rw [lastOr_cons, ih, List.getLast?_cons_cons]

theorem lastOr_none (pre : List Char) : lastOr none pre = pre.getLast? := by
  cases pre with
  | nil => rfl
  | cons c pre' => rw [lastOr_cons, lastOr_some]

theorem wwAux_iff (w : List Char) (hw : w ≠ []) :
    ∀ (cs : List Char) (prev : Option Char),
      wwAux w prev cs = true ↔
        ∃ pre post, cs = pre ++ w ++ post
          ∧ boundaryBefore (lastOr prev pre) = true ∧ boundaryAfter post = true := by
  intro cs
  induction cs with
  | nil =>
      intro prev
      constructor
      · intro h; exact Bool.noConfusion h
      · rintro ⟨pre, post, h, -, -⟩
        cases pre with
        | nil =>
            simp only [List.nil_append] at h
            obtain ⟨h1, -⟩ := List.append_eq_nil.mp h.symm
            exact (hw h1).elim
        | cons a l => simp at h
  | cons c rest ih =>
      intro prev
      simp only [wwAux, Bool.or_eq_true, Bool.and_eq_true]
      constructor
      · rintro (⟨⟨hb, hp⟩, ha⟩ | h)
        · obtain ⟨post, hpost⟩ := List.isPrefixOf_iff_prefix.mp hp
          refine ⟨[], post, by simp [← hpost], by simpa [lastOr] using hb, ?_⟩
          rwa [← hpost, List.drop_left] at ha
        · obtain ⟨pre, post, heq, hb, ha⟩ := (ih (some c)).mp h
          exact ⟨c :: pre, post, by simp [heq], by rwa [lastOr_cons], ha⟩
      · rintro ⟨pre, post, heq, hb, ha⟩
        cases pre with
        | nil =>
            left
            simp only [List.nil_append] at heq
            refine ⟨⟨by simpa [lastOr] using hb, ?_⟩, ?_⟩
            · exact List.isPrefixOf_iff_prefix.mpr ⟨post, heq.symm⟩
            · rw [heq, List.drop_left]; exact ha
        | cons c' pre' =>
            right
            simp only [List.cons_append] at heq
            injection heq with hc hrest
            subst hc
            refine (ih (some c)).mpr ⟨pre', post, hrest, ?_, ha⟩
            rwa [lastOr_cons] at hb

theorem containsWordGo_iff (w text : String) (hw : w.data ≠ []) :
    containsWordGo w text = true ↔ WholeWordIn w text := by
  unfold containsWordGo WholeWordIn
  rw [wwAux_iff w.data hw text.data none]
  refine exists_congr fun pre => exists_congr fun post => ?_
  rw [lastOr_none]

theorem prefixTriggerGo_iff (t lower : String) :
    prefixTriggerGo t lower = true ↔ TriggerPrefix t lower := by
  unfold prefixTriggerGo TriggerPrefix
  rw [Bool.and_eq_true, List.isPrefixOf_iff_prefix]
  constructor
  · rintro ⟨⟨tail, htail⟩, hm⟩
    rw [← htail, List.drop_left] at hm
    cases tail with
    | nil => simp at hm
    | cons c rest => exact ⟨c, rest, htail.symm, hm⟩
  · rintro ⟨c, rest, heq, hsep⟩
    refine ⟨⟨c :: rest, heq.symm⟩, ?_⟩
    rw [heq, List.drop_left]
    exact hsep

theorem suffixGo_iff (suf s : String) : suffixGo suf s = true ↔ suf.data <:+ s.data := by
  simp [suffixGo]

theorem containsGo_iff (sub s : String) : containsGo sub s = true ↔ sub.data <:+: s.data := by
  simp [containsGo]

theorem ifChain (a b c d : Bool) :
    (if a then true else if b then true else if c then true else if d then true else false)
      = (a || (b || (c || d))) := by
  cases a <;> cases b <;> cases c <;> cases d <;> rfl

theorem any_containsWord_iff (lower : String) :
    (questionWords.any fun w => containsWordGo w lower) = true
      ↔ ∃ w ∈ questionWords, WholeWordIn w lower := by
  rw [List.any_eq_true]
  have hne : ∀ w ∈ questionWords, w.data ≠ [] := by decide
  constructor
  · rintro ⟨w, hm, h⟩
    exact ⟨w, hm, (containsWordGo_iff w lower (hne w hm)).mp h⟩
  · rintro ⟨w, hm, h⟩
    exact ⟨w, hm, (containsWordGo_iff w lower (hne w hm)).mpr h⟩

theorem any_contains_iff (text : String) :
    (actionVerbs.any fun v => containsGo v text) = true
      ↔ ∃ v ∈ actionVerbs, v.data <:+: text.data := by
  rw [List.any_eq_true]
  constructor
  · rintro ⟨v, hm, h⟩; exact ⟨v, hm, (containsGo_iff v text).mp h⟩
  · rintro ⟨v, hm, h⟩; exact ⟨v, hm, (containsGo_iff v text).mpr h⟩

theorem any_prefixTrigger_iff (lower : String) :
    (botTriggers.any fun t => prefixTriggerGo t lower) = true
      ↔ ∃ t ∈ botTriggers, TriggerPrefix t lower := by
  rw [List.any_eq_true]
  constructor
  · rintro ⟨t, hm, h⟩; exact ⟨t, hm, (prefixTriggerGo_iff t lower).mp h⟩
  · rintro ⟨t, hm, h⟩; exact ⟨t, hm, (prefixTriggerGo_iff t lower).mpr h⟩

theorem shouldRespond_or (text : String) :
    shouldRespondInGroup text [] =
      ((suffixGo "?" text || suffixGo "？" text)
        || ((questionWords.any fun w => containsWordGo w (toLowerGo text))
        || ((actionVerbs.any fun v => containsGo v text)
        || (botTriggers.any fun t => prefixTriggerGo t (toLowerGo text))))) := by
  unfold shouldRespondInGroup
  rw [if_neg (by simp)]
  exact ifChain _ _ _ _

/-! ### Helper lemmas about the Gateway reader -/

theorem runGw_append (cfg : GwCfg) (s : GwState) (es ms : List GwMsg) :
    runGw cfg s (es ++ ms) =
      match runGw cfg s es with
      | .running s1 => runGw cfg s1 ms
      | o => o := by
  induction es generalizing s with
  | nil => rfl
  | cons e es ih =>
      simp only [List.cons_append, runGw]
      cases stepGw cfg s e with
      | running s1 => exact ih s1
      | success r st => rfl
      | failure m st => rfl

theorem stepGw_lifecycle (cfg : GwCfg) (s : GwState) (rid raw : String) (d : StreamData)
    (hfilt : s.runID = "" ∨ rid = s.runID) :
    stepGw cfg s (.agentEvent (some { runId := rid, stream := "lifecycle", data := some d, raw := raw }))
      = (if d.phase = "end" then .success s.buffer s
         else if d.phase = "error" then
           .failure (if d.message ≠ "" then d.message else "agent error") s
         else .running s) := by
  have hnf : ¬(s.runID ≠ ""
      ∧ ({ runId := rid, stream := "lifecycle", data := some d, raw := raw } : EventPayload).runId
          ≠ s.runID) := by
    rcases hfilt with h | h
    · exact fun hc => hc.1 h
    · exact fun hc => hc.2 h
  simp only [stepGw]
  rw [if_neg hnf]
  simp only [reduceCtorEq, String.reduceEq, if_false, if_true, ite_true, ite_false, if_pos trivial]

/-! ### Helper lemmas about the dedup cache -/

theorem mem_add_of_ne (c : Cache) (idp : String) (now : Nat) (id : String) (t : Nat)
    (h : (id, t) ∈ c.entries) (hne : id ≠ idp) :
    (id, t) ∈ (c.add idp now).entries := by
  unfold Cache.add
  simp only [List.mem_append, List.mem_filter]
  exact Or.inl ⟨h, by simp [hne]⟩

theorem mem_add_self (c : Cache) (id : String) (now : Nat) :
    (id, now) ∈ (c.add id now).entries := by
  unfold Cache.add
  simp

theorem mem_sweep (c : Cache) (now : Nat) (id : String) (t : Nat)
    (h : (id, t) ∈ c.entries) (hle : now ≤ t + dedupTTL) :
    (id, t) ∈ (c.sweep now).entries := by
  unfold Cache.sweep
  rw [List.mem_filter]
  refine ⟨h, ?_⟩
  simp only [decide_eq_true_eq]
  omega

theorem has_of_mem (c : Cache) (id : String) (t : Nat) (h : (id, t) ∈ c.entries) :
    c.has id = true := by
  unfold Cache.has
  rw [List.any_eq_true]
  exact ⟨(id, t), h, by simp⟩

theorem handle_cache (c : Cache) (m : FeishuMessage) (t : Nat) :
    (handleMessage c m t).cache
      = if m.messageID ≠ "" ∧ c.has m.messageID then c
        else if m.messageID ≠ "" then c.add m.messageID t else c := by
  unfold handleMessage
  split
  · rfl
  · dsimp only
    split
    · rfl
    · split <;> rfl

theorem inv_step (id : String) (t1 : Nat) (c : Cache) (e : BridgeEvent)
    (hmem : (id, t1) ∈ c.entries) (ht : e.time ≤ t1 + dedupTTL) :
    (id, t1) ∈ (bridgeStep c e).entries := by
  cases e with
  | sweep now => exact mem_sweep c now id t1 hmem ht
  | handle m tm =>
      show (id, t1) ∈ (handleMessage c m tm).cache.entries
      rw [handle_cache]
      split
      · exact hmem
      · next hcond =>
        split
        · next hne =>
            have hnid : id ≠ m.messageID := by
              intro heq
              apply hcond
              refine ⟨hne, ?_⟩
              have hh := has_of_mem c id t1 hmem
              rwa [heq] at hh
            exact mem_add_of_ne c m.messageID tm id t1 hmem hnid
        · exact hmem

theorem inv_run (id : String) (t1 : Nat) :
    ∀ (es : List BridgeEvent) (c : Cache), (id, t1) ∈ c.entries →
      (∀ e ∈ es, e.time ≤ t1 + dedupTTL) →
      (id, t1) ∈ (runBridge c es).entries := by
  intro es
  induction es with
  | nil => exact fun c h _ => h
  | cons e es ih =>
      intro c h hts
      exact ih _ (inv_step id t1 c e h (hts e (by simp)))
        (fun e2 he2 => hts e2 (List.mem_cons_of_mem e he2))

/-! ### Claim theorems -/

/-- C1: while an `AskClawdbot` call streams, an `assistant` frame carrying a
`text` field replaces the whole reply buffer and a frame carrying a `delta`
field appends to it; in particular the frame sequence
`[{text:"A"}, {delta:"B"}, {delta:"C"}]` reconstructs the buffer `"ABC"`. -/
theorem c1_assistant_text_replaces_delta_appends (buf : String) (d : StreamData) :
    (d.text ≠ "" → applyAssistant buf d = d.text)
    ∧ (d.text = "" → d.delta ≠ "" → applyAssistant buf d = buf ++ d.delta)
    ∧ (runGw cfg₀ {} [frameText "" "A", frameDelta "" "B", frameDelta "" "C"]).finalState.buffer
        = "ABC" := by
  refine ⟨?_, ?_, by decide⟩
  · intro h; simp [applyAssistant, h]
  · intro h1 h2; simp [applyAssistant, h1, h2]

/-- Witness for C1: a `text` frame replaces a non-empty buffer, a `delta`
frame appends to it. -/
theorem c1_witness :
    applyAssistant "zzz" { text := "A" } = "A"
      ∧ applyAssistant "A" { delta := "B" } = "AB" :=
  ⟨(c1_assistant_text_replaces_delta_appends "zzz" { text := "A" }).1 (by decide),
   (c1_assistant_text_replaces_delta_appends "A" { delta := "B" }).2.1 rfl (by decide)⟩

/-- C2: a `lifecycle` frame with `phase="end"` resolves the call
successfully with exactly the buffer accumulated before that frame and no
later event of the call is processed (the outcome is independent of the
remaining events); a `lifecycle` frame with `phase="error"` resolves the
call with the frame's `message` when present, else the generic
`"agent error"`. -/
theorem c2_lifecycle_end_and_error_resolve (cfg : GwCfg) (s0 s1 : GwState)
    (es rest : List GwMsg) (rid raw : String) (d : StreamData)
    (hrun : runGw cfg s0 es = .running s1)
    (hfilter : s1.runID = "" ∨ rid = s1.runID) :
    (d.phase = "end" →
      runGw cfg s0
          (es ++ .agentEvent (some { runId := rid, stream := "lifecycle", data := some d, raw := raw })
            :: rest)
        = .success s1.buffer s1)
    ∧ (d.phase = "error" →
      runGw cfg s0
          (es ++ .agentEvent (some { runId := rid, stream := "lifecycle", data := some d, raw := raw })
            :: rest)
        = .failure (if d.message ≠ "" then d.message else "agent error") s1) := by
  constructor
  · intro hend
    rw [runGw_append, hrun]
    show runGw cfg s1 (_ :: rest) = _
    simp only [runGw]
    rw [stepGw_lifecycle cfg s1 rid raw d hfilter, if_pos hend]
  · intro herr
    rw [runGw_append, hrun]
    show runGw cfg s1 (_ :: rest) = _
    simp only [runGw]
    rw [stepGw_lifecycle cfg s1 rid raw d hfilter, if_neg (by simp [herr]), if_pos herr]

/-- Witness for C2: from a running state with buffer `"ABC"`, a
`phase="end"` lifecycle frame resolves the call with `"ABC"` even though a
further frame follows it. -/
theorem c2_witness :
    runGw cfg₀ { buffer := "ABC" }
        ([] ++ GwMsg.agentEvent
            (some { runId := "", stream := "lifecycle", data := some { phase := "end" }, raw := "" })
          :: [frameDelta "" "IGNORED"])
      = .success "ABC" { buffer := "ABC" } :=
  (c2_lifecycle_end_and_error_resolve cfg₀ { buffer := "ABC" } { buffer := "ABC" } [] [frameDelta "" "IGNORED"]
      "" "" { phase := "end" } rfl (Or.inl rfl)).1 rfl

/-- C8 counterexample: on `connect.challenge` the client does send exactly
one `connect` request, but its scopes are
`operator.read`, `operator.write`, `operator.admin` — not
`read`, `write`, `admin` as the claim states. -/
theorem c8_counterexample :
    stepGw cfg₀ {} .challenge
        = .running { sent := [.connect (mkConnectParams "tok")] }
    ∧ (mkConnectParams "tok").scopes ≠ ["read", "write", "admin"] :=
  ⟨rfl, by decide⟩

/-- C8 amended: on `connect.challenge` the client sends exactly one request
with id `"connect"` and method `"connect"` carrying protocol range 3–3, the
client identity `gateway-client`/`0.2.0`/`linux`, the role `operator`, the
scopes `operator.read`, `operator.write`, `operator.admin`, the auth token,
the locale `zh-CN`, and the user agent `clawdbot-bridge-go`. -/
theorem c8_connect_request_amended (cfg : GwCfg) (s : GwState) :
    stepGw cfg s .challenge
        = .running { s with sent := s.sent ++ [.connect (mkConnectParams cfg.token)] }
    ∧ (GwRequest.connect (mkConnectParams cfg.token)).reqId = "connect"
    ∧ (GwRequest.connect (mkConnectParams cfg.token)).reqMethod = "connect"
    ∧ (mkConnectParams cfg.token).minProtocol = 3
    ∧ (mkConnectParams cfg.token).maxProtocol = 3
    ∧ (mkConnectParams cfg.token).clientId = "gateway-client"
    ∧ (mkConnectParams cfg.token).clientVersion = "0.2.0"
    ∧ (mkConnectParams cfg.token).clientPlatform = "linux"
    ∧ (mkConnectParams cfg.token).role = "operator"
    ∧ (mkConnectParams cfg.token).scopes = ["operator.read", "operator.write", "operator.admin"]
    ∧ (mkConnectParams cfg.token).authToken = cfg.token
    ∧ (mkConnectParams cfg.token).locale = "zh-CN"
    ∧ (mkConnectParams cfg.token).userAgent = "clawdbot-bridge-go" :=
  ⟨rfl, rfl, rfl, rfl, rfl, rfl, rfl, rfl, rfl, rfl, rfl, rfl, rfl⟩

/-- An `assistant` frame whose raw data fails to decode; it is still
forwarded to `onProgress`. -/
def mkAssistantEv (rid raw : String) : GwMsg :=
  .agentEvent (some { runId := rid, stream := "assistant", data := none, raw := raw })

/-- Delivery model for progress notifications: each one is dispatched in its
own goroutine (`go onProgress(stream, data)`), and Go gives no ordering
guarantee between separately spawned goroutines, so a scheduler may deliver
any permutation of the launched notifications. -/
def CanObserve (launched observed : List (String × String)) : Prop :=
  List.Perm observed launched

/-- C9 counterexample: after the reader launches two `assistant`
notifications in arrival order, the reversed order is also a possible
observation, and it differs from the arrival order — so progress
notifications are not guaranteed to be observed in server-side event
order. -/
theorem c9_counterexample :
    CanObserve (runGw cfg₀ {} [mkAssistantEv "" "ra", mkAssistantEv "" "rb"]).finalState.progress
        [("assistant", "rb"), ("assistant", "ra")]
    ∧ [("assistant", "rb"), ("assistant", "ra")]
        ≠ (runGw cfg₀ {} [mkAssistantEv "" "ra", mkAssistantEv "" "rb"]).finalState.progress := by
  constructor
  · show List.Perm [("assistant", "rb"), ("assistant", "ra")]
        [("assistant", "ra"), ("assistant", "rb")]
    exact List.Perm.swap _ _ _
  · decide

/-- C9 amended: the sole reader of a call's connection processes events
strictly in arrival order and launches the progress notifications in that
same order (the launch log equals the arrival-ordered frame list); only the
delivery of the separately spawned notification goroutines is unordered. -/
theorem c9_progress_launch_order_amended (cfg : GwCfg) (rid : String) (raws : List String) :
    ∀ s : GwState, s.runID = rid →
      (runGw cfg s (raws.map (mkAssistantEv rid))).finalState.progress
        = s.progress ++ raws.map (fun r => ("assistant", r)) := by
  induction raws with
  | nil => intro s _; simp [runGw, GwOutcome.finalState]
  | cons r rs ih =>
      intro s hs
      have hstep : stepGw cfg s (mkAssistantEv rid r)
          = .running { s with progress := s.progress ++ [("assistant", r)] } := by
        simp only [stepGw, mkAssistantEv]
        rw [if_neg ?hne]
        · simp
        case hne =>
          rintro ⟨-, hne⟩
          exact hne hs.symm
      rw [List.map_cons]
      simp only [runGw]
      rw [hstep]
      show (runGw cfg { s with progress := s.progress ++ [("assistant", r)] }
          (rs.map (mkAssistantEv rid))).finalState.progress = _
      rw [ih { s with progress := s.progress ++ [("assistant", r)] }
        (show ({ s with progress := s.progress ++ [("assistant", r)] } : GwState).runID = rid from hs)]
      simp

/-- Witness for C9 amended: two frames arriving in order `x`, `y` produce
the launch log `[("assistant","x"), ("assistant","y")]`. -/
theorem c9_witness :
    (runGw cfg₀ {} (["x", "y"].map (mkAssistantEv ""))).finalState.progress
      = [("assistant", "x"), ("assistant", "y")] :=
  c9_progress_launch_order_amended cfg₀ "" ["x", "y"] {} rfl

/-- C3: the claimed invariant fails.  With threshold 500 ms, if the first
streamed chunk arrives before the thinking timer fires, the timer callback
(which only checks `done`) still sends a thinking placeholder, so a thinking
message and the response message are visible at once; on resolution the
success path only edits the response message, so the thinking placeholder
stays visible forever. -/
theorem c3_thinking_placeholder_after_response :
    ((runD 500 {} [.progress "assistant" (some { delta := "好" }) 100, .timerFire]).1.responseMessageID
        = "m0"
    ∧ (runD 500 {} [.progress "assistant" (some { delta := "好" }) 100, .timerFire]).1.placeholderID
        = "m1"
    ∧ (runD 500 {} [.progress "assistant" (some { delta := "好" }) 100, .timerFire]).1.fs.msgs
        = [("m0", "好"), ("m1", "正在思考.")])
    ∧ (runD 500 {}
          [.progress "assistant" (some { delta := "好" }) 100, .timerFire,
            .resolve "完成" none]).1.fs.msgs
        = [("m0", "完成"), ("m1", "正在思考.")] := by
  decide

/-- C4: when the call returns with a trimmed reply that is non-empty and not
`NO_REPLY`: with a response placeholder the dispatcher performs one final
edit of it; with only a thinking placeholder it deletes the placeholder and
sends the reply as a new message; with neither it sends a new message. -/
theorem c4_final_dispatch_cases (thinkingMs : Nat) (s : DState) (reply : String)
    (err : Option String)
    (hne : goTrimSpace (resolvedReply reply err) ≠ "")
    (hnr : goTrimSpace (resolvedReply reply err) ≠ "NO_REPLY") :
    (s.responseMessageID ≠ "" →
      (stepD thinkingMs s (.resolve reply err)).2
        = [.update s.responseMessageID (goTrimSpace (resolvedReply reply err))])
    ∧ (s.responseMessageID = "" → s.placeholderID ≠ "" →
      (stepD thinkingMs s (.resolve reply err)).2
        = [.delete s.placeholderID, .send (freshID s.fs) (goTrimSpace (resolvedReply reply err))])
    ∧ (s.responseMessageID = "" → s.placeholderID = "" →
      (stepD thinkingMs s (.resolve reply err)).2
        = [.send (freshID s.fs) (goTrimSpace (resolvedReply reply err))]) := by
  simp only [stepD]
  rw [if_neg (not_or.mpr ⟨hne, hnr⟩)]
  refine ⟨?_, ?_, ?_⟩
  · intro h1
    rw [if_pos h1]
  · intro h1 h2
    rw [if_neg (fun hc => hc h1), if_pos h2]
    rfl
  · intro h1 h2
    rw [if_neg (fun hc => hc h1), if_neg (fun hc => hc h2)]
    rfl

/-- Witness for C4: with an existing response placeholder `m0`, the reply
`" 完成 "` is trimmed and applied as a single final edit of `m0`. -/
theorem c4_witness :
    (stepD 0 ({ responseMessageID := "m0" } : DState) (.resolve " 完成 " none)).2
      = [FsAction.update "m0" "完成"] :=
  (c4_final_dispatch_cases 0 { responseMessageID := "m0" } " 完成 " none
      (by decide) (by decide)).1 (by decide)

/-- C7 counterexample: reachable state in which only a thinking placeholder
(`m0`) exists; resolving with `"完成"` deletes `m0` and sends a new message
`m1` — it does not edit `m0` in place as the claim states. -/
theorem c7_counterexample :
    (stepD 500 (runD 500 {} [.timerFire]).1 (.resolve "完成" none)).2
        = [.delete "m0", .send "m1" "完成"]
    ∧ FsAction.update "m0" "完成"
        ∉ (stepD 500 (runD 500 {} [.timerFire]).1 (.resolve "完成" none)).2 := by
  decide

/-- C7 amended: when the call resolves with a non-empty, non-`NO_REPLY`
reply and only a thinking placeholder exists, the streaming dispatcher
deletes the thinking placeholder and sends the reply as a new message
(delete + send, not an in-place edit). -/
theorem c7_thinking_only_delete_and_send_amended (thinkingMs : Nat) (s : DState)
    (reply : String) (err : Option String)
    (hne : goTrimSpace (resolvedReply reply err) ≠ "")
    (hnr : goTrimSpace (resolvedReply reply err) ≠ "NO_REPLY")
    (hresp : s.responseMessageID = "") (hph : s.placeholderID ≠ "") :
    (stepD thinkingMs s (.resolve reply err)).2
      = [.delete s.placeholderID, .send (freshID s.fs) (goTrimSpace (resolvedReply reply err))] := by
  simp only [stepD]
  rw [if_neg (not_or.mpr ⟨hne, hnr⟩), if_neg (fun hc => hc hresp), if_pos hph]
  rfl

/-- Witness for C7 amended: placeholder `p`, no response message, reply
`"完成"` → actions `[delete p, send m0 完成]`. -/
theorem c7_witness :
    (stepD 0 ({ placeholderID := "p" } : DState) (.resolve "完成" none)).2
      = [FsAction.delete "p", FsAction.send "m0" "完成"] :=
  c7_thinking_only_delete_and_send_amended 0 { placeholderID := "p" } "完成" none
    (by decide) (by decide) rfl (by decide)

/-- The separator set as the claim words it: space, comma, colon, or their
full-width forms.  Modelled from the claim for comparison with the source's
`[\s,:，：]` class. -/
def claimedSeparators : List Char := [' ', ',', ':', '　', '，', '：']

/-- The trigger condition exactly as the claim states it, with the claim's
separator set.  Modelled from the claim for comparison with
`shouldRespondInGroup`. -/
def claimedTrigger (text : String) : Bool :=
  suffixGo "?" text || suffixGo "？" text
    || (questionWords.any fun w => containsWordGo w (toLowerGo text))
    || (actionVerbs.any fun v => containsGo v text)
    || (botTriggers.any fun t =>
          t.data.isPrefixOf (toLowerGo text).data &&
            (match (toLowerGo text).data.drop t.data.length with
             | [] => false
             | c :: _ => claimedSeparators.contains c))

/-- C5 counterexample: for the text `"bot\tx"` (bot name followed by a tab)
the source policy triggers — the pattern class `[\s,:，：]` accepts a tab —
but the claim's separator set (space, comma, colon and their full-width
forms) does not contain a tab, so the claimed equivalence fails. -/
theorem c5_counterexample :
    shouldRespondInGroup "bot\tx" [] = true ∧ claimedTrigger "bot\tx" = false := by
  decide

/-- C5 amended: for group messages without mentions the policy triggers iff
the text ends with `?`/`？`, contains a case-insensitive whole-word match of
a fixed interrogative word, contains a fixed action verb as a substring, or
begins with a fixed bot-name trigger followed by a separator in the class
`[\s,:，：]` (ASCII whitespace, comma, colon, full-width comma, full-width
colon — not the full-width space). -/
theorem c5_group_trigger_iff_amended (text : String) :
    shouldRespondInGroup text [] = true ↔ SpecTrigger text := by
  rw [shouldRespond_or]
  unfold SpecTrigger
  simp only [Bool.or_eq_true]
  exact or_congr (or_congr (suffixGo_iff _ _) (suffixGo_iff _ _))
    (or_congr (any_containsWord_iff _) (or_congr (any_contains_iff _) (any_prefixTrigger_iff _)))

/-- C6: a message id handled once is recorded; as long as every intermediate
event (other inbound messages, cleanup sweeps) happens within the dedup TTL
of the first occurrence, a second invocation with the same id is an
idempotent no-op: it returns `nil`, leaves the cache unchanged, and spawns
no unit of work. -/
theorem c6_duplicate_within_ttl_noop (c0 : Cache) (msg msg2 : FeishuMessage)
    (t1 t2 : Nat) (es : List BridgeEvent)
    (hid : msg.messageID ≠ "") (hsame : msg2.messageID = msg.messageID)
    (hfresh : ¬(c0.has msg.messageID = true))
    (hes : ∀ e ∈ es, e.time ≤ t1 + dedupTTL) (ht2 : t2 ≤ t1 + dedupTTL) :
    handleMessage (runBridge (handleMessage c0 msg t1).cache es) msg2 t2
      = { cache := runBridge (handleMessage c0 msg t1).cache es, spawn := none, err := none } := by
  have hc1 : (handleMessage c0 msg t1).cache = c0.add msg.messageID t1 := by
    rw [handle_cache, if_neg (fun hc => hfresh hc.2), if_pos hid]
  have hmem : (msg.messageID, t1) ∈ (runBridge (handleMessage c0 msg t1).cache es).entries := by
    refine inv_run msg.messageID t1 es _ ?_ hes
    rw [hc1]
    exact mem_add_self c0 msg.messageID t1
  have hhas : (runBridge (handleMessage c0 msg t1).cache es).has msg2.messageID = true := by
    rw [hsame]
    exact has_of_mem _ _ _ hmem
  unfold handleMessage
  rw [if_pos ⟨hsame ▸ hid, hhas⟩]

/-- Witness for C6: id `"x"` handled at time 0; after a sweep at 60000 ms
and an unrelated message at 70000 ms, handling `"x"` again at 600000 ms
(exactly the TTL) is a no-op. -/
theorem c6_witness :
    handleMessage
        (runBridge (handleMessage { entries := [] }
              { messageID := "x", chatID := "c", content := "hello" } 0).cache
          [.sweep 60000, .handle { messageID := "y", chatID := "c", content := "hi" } 70000])
        { messageID := "x", chatID := "c", content := "hello again" } 600000
      = { cache := runBridge (handleMessage { entries := [] }
              { messageID := "x", chatID := "c", content := "hello" } 0).cache
            [.sweep 60000, .handle { messageID := "y", chatID := "c", content := "hi" } 70000],
          spawn := none, err := none } :=
  c6_duplicate_within_ttl_noop { entries := [] }
    { messageID := "x", chatID := "c", content := "hello" }
    { messageID := "x", chatID := "c", content := "hello again" } 0 600000
    [.sweep 60000, .handle { messageID := "y", chatID := "c", content := "hi" } 70000]
    (by decide) rfl (by decide)
    (by
      intro e he
      simp only [List.mem_cons, List.not_mem_nil, or_false] at he
      rcases he with rfl | rfl <;> decide)
    (by decide)

/-- C10: `HandleMessage` returns `nil` for every inbound message — for
duplicates, for messages that are empty after mention stripping and
trimming, for group messages failing the trigger check, and for dispatched
messages alike; no Gateway or chat-platform failure flows into its error
result (the unit of work is spawned asynchronously and its outcome is not
an input of `handleMessage`). -/
theorem c10_handle_message_always_nil (c : Cache) (msg : FeishuMessage) (now : Nat) :
    (handleMessage c msg now).err = none := by
  unfold handleMessage
  split
  · rfl
  · dsimp only
    split
    · rfl
    · split <;> rfl

